import Mathlib

/-!
Verification of the signature and private-key components of the clarity
library (`src/signature.rs`, `src/private_key.rs`).

Modelling conventions:
* The 256-bit unsigned integer type `num256::Uint256` is modelled as `Nat`;
  subtraction is `Nat` (truncated) subtraction and division is `Nat` floor
  division.  The big-integer type is an external collaborator of this core,
  described in the spec as an arbitrary-width unsigned integer.
* Byte arrays and slices are modelled as `List Nat`, each entry a byte value.
* Fallible operations (`Result` in the source) are modelled with `Except`.
* The external elliptic-curve and Keccak-256 collaborators are abstracted as
  function parameters; their contracts from the spec appear as hypotheses.
-/

namespace Clarity

/-- Modelled from the spec: the curve-order constant `SECPK1N` (the secp256k1
group order `N`), provided by the `constants` module which is not among the
given sources; the spec calls it "the secp256k1 curve order constant". -/
def SECPK1N : Nat :=
  115792089237316195423570985008687907852837564279074904382605163141518161494337

/-- Modelled from the spec: the error taxonomy of `error::ClarityError`
(module not among the given sources; variants named at their use sites in
`signature.rs` and `private_key.rs`). -/
inductive ClarityError where
  | InvalidS : ClarityError
  | InvalidPrivKey : ClarityError
  | ZeroPrivKey : ClarityError
  deriving DecidableEq, Repr

/-- Embedding of `struct Signature` (`src/signature.rs`): the triple of
`Uint256` fields `v`, `r`, `s`. -/
structure Signature where
  v : Nat
  r : Nat
  s : Nat
  deriving DecidableEq, Repr

namespace Signature

/-- Embedding of `Signature::new` (`src/signature.rs` lines 23-25). -/
def new (v r s : Nat) : Signature :=
  { v := v, r := r, s := s }

/-- Embedding of `Signature::is_valid` (`src/signature.rs` lines 27-41). -/
def is_valid (sig : Signature) : Bool :=
  if SECPK1N ≤ sig.s then
    false
  else if SECPK1N ≤ sig.r ∨ SECPK1N ≤ sig.s ∨ sig.r = 0 ∨ sig.s = 0 then
    false
  else
    true

/-- Embedding of `Signature::network_id` (`src/signature.rs` lines 43-51). -/
def network_id (sig : Signature) : Option Nat :=
  if sig.r = 0 ∧ sig.s = 0 then
    some sig.v
  else if sig.v = 27 ∨ sig.v = 28 then
    none
  else
    some ((sig.v - 1) / 2 - 17)

/-- Embedding of `Signature::check_low_s_metropolis`
(`src/signature.rs` lines 53-58). -/
def check_low_s_metropolis (sig : Signature) : Except ClarityError Unit :=
  if SECPK1N / 2 < sig.s then
    Except.error ClarityError.InvalidS
  else
    Except.ok ()

/-- Embedding of `Signature::check_low_s_homestead`
(`src/signature.rs` lines 60-65). -/
def check_low_s_homestead (sig : Signature) : Except ClarityError Unit :=
  if SECPK1N / 2 < sig.s ∨ sig.s = 0 then
    Except.error ClarityError.InvalidS
  else
    Except.ok ()

end Signature

/-- Modelled from the spec: the fixed-width big-endian serialization of the
big-integer collaborator (`Into<[u8; 32]> for Uint256`, module `num256` not
among the given sources): `n` encoded big-endian, zero-padded to `w` bytes,
most significant byte first. -/
def natToBytesBEPadded (n w : Nat) : List Nat :=
  match w with
  | 0 => []
  | w + 1 => natToBytesBEPadded (n / 256) w ++ [n % 256]

/-- Modelled from the spec: the minimal big-endian serialization of the
big-integer collaborator (`Uint256::to_bytes_be`, backed by
`BigUint::to_bytes_be`, which returns the single byte `0x00` for zero). -/
def to_bytes_be (n : Nat) : List Nat :=
  if _h : n < 256 then
    [n]
  else
    to_bytes_be (n / 256) ++ [n % 256]
termination_by n
decreasing_by
  exact Nat.div_lt_self (by omega) (by omega)

/-- The sixteen lowercase hexadecimal digit characters in value order: the
digits `0`-`9` followed by the letters `a`-`f`. -/
def hexDigits : List Char :=
  (List.range 16).map (fun n =>
    if n < 10 then Char.ofNat (Char.toNat '0' + n)
    else Char.ofNat (Char.toNat 'a' + (n - 10)))

/-- Lowercase hex digit character of a value below 16. -/
def hex_char (n : Nat) : Char :=
  hexDigits.getD n '0'

/-- Modelled from the spec: the hex-codec collaborator
`utils::bytes_to_hex_str` (`bytesToHex(bytes) -> str`, module not among the
given sources): two lowercase hex digits per byte. -/
def bytes_to_hex_str (bs : List Nat) : List Char :=
  (bs.map (fun b => [hex_char (b / 16), hex_char (b % 16)])).flatten

/-- The slice `v[v.len() - 1..]` taken in `Signature::to_string`: the
one-element suffix holding the last byte. -/
def last_byte (l : List Nat) : List Nat :=
  l.drop (l.length - 1)

/-- Embedding of `Signature::to_string` (`src/signature.rs` lines 84-97):
`r` and `s` as 32-byte big-endian arrays, then the final byte of the minimal
big-endian form of `v`, all hex-encoded behind the prefix "0x". -/
def Signature.to_string (sig : Signature) : String :=
  String.mk ('0' :: 'x' :: bytes_to_hex_str
    (natToBytesBEPadded sig.r 32 ++ natToBytesBEPadded sig.s 32 ++
      last_byte (to_bytes_be sig.v)))

/-- Reference encoding following the words of the spec (for claim C3):
"0x", then `r` big-endian zero-padded to 32 bytes, then `s` big-endian
zero-padded to 32 bytes, then one final byte equal to `v mod 256`, in
lowercase hex. -/
def canonical_hex_spec (sig : Signature) : String :=
  String.mk ('0' :: 'x' :: bytes_to_hex_str
    (natToBytesBEPadded sig.r 32 ++ natToBytesBEPadded sig.s 32 ++
      [sig.v % 256]))

/-- Embedding of `struct PrivateKey` (`src/private_key.rs` line 16): a raw
32-byte array, modelled as a list of byte values. -/
structure PrivateKey where
  bytes : List Nat
  deriving DecidableEq, Repr

/-- Error type of `PrivateKey::from_str`: the length check fails with
`PrivateKeyError::InvalidLengthError`, the hex decode with the hex codec's
`ByteDecodeError`. -/
inductive KeyParseError where
  | InvalidLengthError : KeyParseError
  | ByteDecodeError : KeyParseError
  deriving DecidableEq, Repr

/-- Modelled from the spec: numeric value of one hex digit character, used
by the hex-codec collaborator (`utils` module not among the given
sources). -/
def hex_char_to_nat (c : Char) : Option Nat :=
  if '0' ≤ c ∧ c ≤ '9' then
    some (c.toNat - Char.toNat '0')
  else if 'a' ≤ c ∧ c ≤ 'f' then
    some (c.toNat - Char.toNat 'a' + 10)
  else if 'A' ≤ c ∧ c ≤ 'F' then
    some (c.toNat - Char.toNat 'A' + 10)
  else
    none

/-- Modelled from the spec: the hex-codec collaborator
`utils::hex_str_to_bytes` (`hexToBytes(str) -> bytes | Error`): consecutive
pairs of hex digits decoded to bytes, failing on any non-hex character and
on odd length. -/
def hex_str_to_bytes (cs : List Char) : Option (List Nat) :=
  match cs with
  | [] => some []
  | [_] => none
  | c1 :: c2 :: rest =>
    match hex_char_to_nat c1, hex_char_to_nat c2, hex_str_to_bytes rest with
    | some hi, some lo, some tail => some ((16 * hi + lo) :: tail)
    | _, _, _ => none

namespace PrivateKey

/-- Embedding of `PrivateKey::new` (`src/private_key.rs` lines 40-42): the
all-zero key. -/
def new : PrivateKey :=
  { bytes := List.replicate 32 0 }

/-- Embedding of `PrivateKey::from_slice` (`src/private_key.rs` lines
44-51). -/
def from_slice (slice : List Nat) : Except ClarityError PrivateKey :=
  if slice.length ≠ 32 then
    Except.error ClarityError.InvalidPrivKey
  else
    Except.ok { bytes := slice }

/-- Embedding of `PrivateKey::to_bytes` (`src/private_key.rs` lines
53-55). -/
def to_bytes (k : PrivateKey) : List Nat :=
  k.bytes

/-- Embedding of the `FromStr` instance of `PrivateKey`
(`src/private_key.rs` lines 21-30): the length check runs before any hex
decoding. -/
def from_str (s : List Char) : Except KeyParseError PrivateKey :=
  if s.length ≠ 64 then
    Except.error KeyParseError.InvalidLengthError
  else
    match hex_str_to_bytes s with
    | some bytes => Except.ok { bytes := bytes }
    | none => Except.error KeyParseError.ByteDecodeError

/-- Numeric value of a big-endian byte string, as `SecretKey::from_slice`
interprets the 32 key bytes. -/
def be_bytes_to_nat (bs : List Nat) : Nat :=
  bs.foldl (fun acc b => 256 * acc + b) 0

/-- Modelled from the spec: the elliptic-curve collaborator
`scalarToPublicKey(bytes[32]) -> bytes[65] | Error` (`secp256k1`'s
`SecretKey::from_slice` followed by `PublicKey::from_secret_key` and
`serialize_uncompressed`): fails on an invalid or zero scalar, otherwise
yields the uncompressed point, whose computation is abstracted as the
function parameter `pointFn`. -/
def scalar_to_public_key (pointFn : Nat → List Nat) (key : List Nat) :
    Except ClarityError (List Nat) :=
  if key.length ≠ 32 then
    Except.error ClarityError.InvalidPrivKey
  else if be_bytes_to_nat key = 0 ∨ SECPK1N ≤ be_bytes_to_nat key then
    Except.error ClarityError.InvalidPrivKey
  else
    Except.ok (pointFn (be_bytes_to_nat key))

/-- Embedding of `PrivateKey::to_public_key` (`src/private_key.rs` lines
60-76); the Keccak-256 collaborator is abstracted as the function parameter
`keccak`. -/
def to_public_key (pointFn : Nat → List Nat) (keccak : List Nat → List Nat)
    (k : PrivateKey) : Except ClarityError (List Nat) :=
  match scalar_to_public_key pointFn k.bytes with
  | Except.error e => Except.error e
  | Except.ok pkey =>
    if pkey.drop 1 = List.replicate 64 0 then
      Except.error ClarityError.ZeroPrivKey
    else
      Except.ok ((keccak (pkey.drop 1)).drop 12)

end PrivateKey

theorem length_natToBytesBEPadded (n w : Nat) :
    (natToBytesBEPadded n w).length = w := by
  induction w generalizing n with
  | zero => rfl
  | succ w ih => simp [natToBytesBEPadded, ih]

theorem length_bytes_to_hex_str (bs : List Nat) :
    (bytes_to_hex_str bs).length = 2 * bs.length := by
  induction bs with
  | nil => rfl
  | cons b bs ih =>
    simp only [bytes_to_hex_str, List.map_cons, List.flatten_cons,
      List.length_append, List.length_cons, List.length_nil] at ih ⊢
    omega

theorem last_byte_append (l : List Nat) (a : Nat) :
    last_byte (l ++ [a]) = [a] := by
  unfold last_byte
  rw [List.length_append]
  simp only [List.length_singleton, Nat.add_sub_cancel]
  exact List.drop_left l [a]

theorem last_byte_to_bytes_be (n : Nat) :
    last_byte (to_bytes_be n) = [n % 256] := by
  unfold to_bytes_be
  split
  · rename_i h
    unfold last_byte
    simp [Nat.mod_eq_of_lt h]
  · exact last_byte_append _ _

theorem hex_char_mem_hexDigits (n : Nat) : hex_char n ∈ hexDigits := by
  unfold hex_char
  rcases Nat.lt_or_ge n 16 with h | h
  · interval_cases n <;> decide
  · rw [List.getD_eq_default]
    · decide
    · simpa [hexDigits] using h

theorem toList_mk_drop_two (l : List Char) :
    ((String.mk ('0' :: 'x' :: l)).toList).drop 2 = l := rfl

theorem bytes_to_hex_str_mem (bs : List Nat) (c : Char)
    (hc : c ∈ bytes_to_hex_str bs) : c ∈ hexDigits := by
  unfold bytes_to_hex_str at hc
  rw [List.mem_flatten] at hc
  obtain ⟨l, hl, hcl⟩ := hc
  rw [List.mem_map] at hl
  obtain ⟨b, _, rfl⟩ := hl
  simp only [List.mem_cons, List.not_mem_nil, or_false] at hcl
  rcases hcl with rfl | rfl
  · exact hex_char_mem_hexDigits _
  · exact hex_char_mem_hexDigits _

/-- Claim C1: for every signature `(v, r, s)`, `is_valid()` returns `true`
if and only if `0 < r < N` and `0 < s < N`, where `N` is the secp256k1
curve order constant `SECPK1N`. -/
theorem is_valid_iff_in_range (sig : Signature) :
    sig.is_valid = true ↔
      (0 < sig.r ∧ sig.r < SECPK1N ∧ 0 < sig.s ∧ sig.s < SECPK1N) := by
  unfold Signature.is_valid
  split
  · constructor
    · intro h
      exact absurd h (by simp)
    · intro h
      omega
  · split
    · constructor
      · intro h
        exact absurd h (by simp)
      · intro h
        omega
    · constructor
      · intro _
        omega
      · intro _
        rfl

/-- Claim C2: for every signature `(v, r, s)`, `network_id()` follows the
three-case reference definition: if `r == 0` and `s == 0` it returns
`Some(v)`; otherwise if `v == 27` or `v == 28` it returns `None`; otherwise
it returns `Some(((v - 1) / 2) - 17)` with unsigned integer floor
division. -/
theorem network_id_cases (sig : Signature) :
    (sig.r = 0 ∧ sig.s = 0 → sig.network_id = some sig.v) ∧
    (¬(sig.r = 0 ∧ sig.s = 0) → (sig.v = 27 ∨ sig.v = 28) →
      sig.network_id = none) ∧
    (¬(sig.r = 0 ∧ sig.s = 0) → sig.v ≠ 27 → sig.v ≠ 28 →
      sig.network_id = some ((sig.v - 1) / 2 - 17)) := by
  refine ⟨?_, ?_, ?_⟩
  · intro h
    simp [Signature.network_id, h]
  · intro h hv
    simp [Signature.network_id, h, hv]
  · intro h hv27 hv28
    simp [Signature.network_id, h, hv27, hv28]

/-- Witness for C2: a concrete signature in the third (EIP-155) case. -/
theorem network_id_cases_witness :
    Signature.network_id { v := 37, r := 1, s := 1 } = some 1 :=
  (network_id_cases { v := 37, r := 1, s := 1 }).2.2
    (by decide) (by decide) (by decide)

/-- Claim C4: for every chain id `c` and every nonzero `r`, `s`, a signature
with `v = 2*c + 35` or `v = 2*c + 36` has `network_id() == Some(c)`
(round-trip recovery of the EIP-155 chain id). -/
theorem network_id_roundtrip (c r s : Nat) (hr : r ≠ 0) (_hs : s ≠ 0) :
    Signature.network_id { v := 2 * c + 35, r := r, s := s } = some c ∧
    Signature.network_id { v := 2 * c + 36, r := r, s := s } = some c := by
  constructor
  · have h27 : ¬(2 * c + 35 = 27 ∨ 2 * c + 35 = 28) := by omega
    simp only [Signature.network_id]
    rw [if_neg (by simp [hr]), if_neg h27]
    congr 1
    omega
  · have h27 : ¬(2 * c + 36 = 27 ∨ 2 * c + 36 = 28) := by omega
    simp only [Signature.network_id]
    rw [if_neg (by simp [hr]), if_neg h27]
    congr 1
    omega

/-- Witness for C4: chain id `5` is recovered from `v = 45` and `v = 46`. -/
theorem network_id_roundtrip_witness :
    Signature.network_id { v := 45, r := 1, s := 1 } = some 5 ∧
    Signature.network_id { v := 46, r := 1, s := 1 } = some 5 :=
  network_id_roundtrip 5 1 1 (by decide) (by decide)

/-- Claim C5: for every signature, `check_low_s_metropolis()` fails with
`InvalidS` if and only if `s > N/2` (floor division), and succeeds if and
only if `s ≤ N/2`; in particular `s == 0` is accepted. -/
theorem check_low_s_metropolis_iff (sig : Signature) :
    (sig.check_low_s_metropolis = Except.error ClarityError.InvalidS ↔
      SECPK1N / 2 < sig.s) ∧
    (sig.check_low_s_metropolis = Except.ok () ↔ sig.s ≤ SECPK1N / 2) := by
  unfold Signature.check_low_s_metropolis
  split
  · rename_i h
    exact ⟨⟨fun _ => h, fun _ => rfl⟩,
      ⟨fun hk => (by cases hk), fun hk => (by omega)⟩⟩
  · rename_i h
    exact ⟨⟨fun hk => (by cases hk), fun hk => absurd hk h⟩,
      ⟨fun _ => (by omega), fun _ => rfl⟩⟩

/-- Claim C6: for every signature, `check_low_s_homestead()` fails with
`InvalidS` if and only if `s > N/2` (floor) or `s == 0`, and succeeds
otherwise. -/
theorem check_low_s_homestead_iff (sig : Signature) :
    (sig.check_low_s_homestead = Except.error ClarityError.InvalidS ↔
      (SECPK1N / 2 < sig.s ∨ sig.s = 0)) ∧
    (sig.check_low_s_homestead = Except.ok () ↔
      (sig.s ≤ SECPK1N / 2 ∧ sig.s ≠ 0)) := by
  unfold Signature.check_low_s_homestead
  split
  · rename_i h
    exact ⟨⟨fun _ => h, fun _ => rfl⟩,
      ⟨fun hk => (by cases hk), fun hk => (by omega)⟩⟩
  · rename_i h
    exact ⟨⟨fun hk => (by cases hk), fun hk => absurd hk h⟩,
      ⟨fun _ => (by omega), fun _ => rfl⟩⟩

/-- Claim C3: for every signature, `to_string()` returns a lowercase hex
string of exactly 132 characters: the prefix "0x", then `r` big-endian
zero-padded to 32 bytes, then `s` big-endian zero-padded to 32 bytes, then
one final byte equal to `v mod 256` (the last byte of `v`'s minimal
big-endian form), including when `v == 0`. -/
theorem to_string_canonical (sig : Signature) :
    sig.to_string = canonical_hex_spec sig ∧
    sig.to_string.length = 132 ∧
    ∀ c ∈ sig.to_string.toList.drop 2, c ∈ hexDigits := by
  have heq : sig.to_string = canonical_hex_spec sig := by
    unfold Signature.to_string canonical_hex_spec
    rw [last_byte_to_bytes_be]
  refine ⟨heq, ?_, ?_⟩
  · rw [heq]
    unfold canonical_hex_spec
    simp only [String.length, List.length_cons, length_bytes_to_hex_str,
      List.length_append, length_natToBytesBEPadded, List.length_singleton,
      List.length_nil]
  · rw [heq]
    unfold canonical_hex_spec
    intro c hc
    rw [toList_mk_drop_two] at hc
    exact bytes_to_hex_str_mem _ c hc

/-- Witness for C3: the encoding of the repository's own test vector
`Signature::new(1, 2, 3)` has length 132. -/
theorem to_string_canonical_witness :
    (Signature.to_string { v := 1, r := 2, s := 3 }).length = 132 :=
  (to_string_canonical { v := 1, r := 2, s := 3 }).2.1

theorem hex_str_to_bytes_cons_none (c1 c2 : Char) (rest : List Char)
    (hfail : ∀ hi lo tail, hex_char_to_nat c1 = some hi →
      hex_char_to_nat c2 = some lo → hex_str_to_bytes rest = some tail →
      False) :
    hex_str_to_bytes (c1 :: c2 :: rest) = none := by
  show (match hex_char_to_nat c1, hex_char_to_nat c2,
      hex_str_to_bytes rest with
    | some hi, some lo, some tail => some ((16 * hi + lo) :: tail)
    | _, _, _ => none) = none
  cases h1 : hex_char_to_nat c1 with
  | none => rfl
  | some hi =>
    cases h2 : hex_char_to_nat c2 with
    | none => rfl
    | some lo =>
      cases h3 : hex_str_to_bytes rest with
      | none => rfl
      | some tail => exact (hfail hi lo tail h1 h2 h3).elim

theorem hex_str_to_bytes_none_of_mem (cs : List Char) :
    ∀ c ∈ cs, hex_char_to_nat c = none → hex_str_to_bytes cs = none := by
  induction cs using hex_str_to_bytes.induct with
  | case1 =>
    intro c hc
    cases hc
  | case2 x =>
    intro c hc hn
    rfl
  | case3 c1 c2 rest hi lo tail h3 h2 h1 ih =>
    intro c hc hn
    simp only [List.mem_cons] at hc
    rcases hc with rfl | rfl | hc
    · rw [h1] at hn
      cases hn
    · rw [h2] at hn
      cases hn
    · rw [ih c hc hn] at h3
      cases h3
  | case4 c1 c2 rest hfail ih =>
    intro c hc hn
    exact hex_str_to_bytes_cons_none c1 c2 rest hfail

theorem hex_str_to_bytes_length (cs : List Char) :
    ∀ bs, hex_str_to_bytes cs = some bs → 2 * bs.length = cs.length := by
  induction cs using hex_str_to_bytes.induct with
  | case1 =>
    intro bs h
    simp only [hex_str_to_bytes] at h
    cases h
    rfl
  | case2 x =>
    intro bs h
    simp only [hex_str_to_bytes] at h
    cases h
  | case3 c1 c2 rest hi lo tail h3 h2 h1 ih =>
    intro bs h
    simp only [hex_str_to_bytes, h1, h2, h3] at h
    cases h
    have h4 := ih tail h3
    simp only [List.length_cons]
    omega
  | case4 c1 c2 rest hfail ih =>
    intro bs h
    rw [hex_str_to_bytes_cons_none c1 c2 rest hfail] at h
    cases h

/-- Claim C9: private-key parsing from hex fails with `InvalidLength` for
every string whose length is not exactly 64 characters, before any hex
decoding; a 64-character string containing a non-hex character fails with a
decode error instead; on success the decoded 32-byte key is returned. -/
theorem from_str_cases (s : List Char) :
    (s.length ≠ 64 →
      PrivateKey.from_str s = Except.error KeyParseError.InvalidLengthError) ∧
    (s.length = 64 → (∃ c ∈ s, hex_char_to_nat c = none) →
      PrivateKey.from_str s = Except.error KeyParseError.ByteDecodeError) ∧
    (∀ k, PrivateKey.from_str s = Except.ok k →
      hex_str_to_bytes s = some k.bytes ∧ k.bytes.length = 32) := by
  refine ⟨?_, ?_, ?_⟩
  · intro h
    unfold PrivateKey.from_str
    rw [if_pos h]
  · intro hlen hbad
    obtain ⟨c, hc, hn⟩ := hbad
    unfold PrivateKey.from_str
    rw [if_neg (by omega), hex_str_to_bytes_none_of_mem s c hc hn]
  · intro k hk
    unfold PrivateKey.from_str at hk
    by_cases hlen : s.length ≠ 64
    · rw [if_pos hlen] at hk
      cases hk
    · rw [if_neg hlen] at hk
      cases hdec : hex_str_to_bytes s with
      | none =>
        rw [hdec] at hk
        cases hk
      | some bs =>
        rw [hdec] at hk
        cases hk
        have h2 := hex_str_to_bytes_length s bs hdec
        refine ⟨rfl, ?_⟩
        show bs.length = 32
        omega

/-- Witness for C9: a 63-character hex string fails with `InvalidLength`. -/
theorem from_str_cases_witness :
    PrivateKey.from_str (List.replicate 63 'a') =
      Except.error KeyParseError.InvalidLengthError :=
  (from_str_cases (List.replicate 63 'a')).1 (by decide)

/-- Claim C10: `PrivateKey::from_slice` succeeds on every 32-byte slice and
stores it verbatim (`to_bytes` returns exactly the input, with no
scalar-range or non-zero check), while every other length fails with
`InvalidPrivKey`. -/
theorem from_slice_roundtrip (slice : List Nat) :
    (slice.length = 32 →
      PrivateKey.from_slice slice = Except.ok { bytes := slice } ∧
      ∀ k, PrivateKey.from_slice slice = Except.ok k →
        k.to_bytes = slice) ∧
    (slice.length ≠ 32 →
      PrivateKey.from_slice slice = Except.error ClarityError.InvalidPrivKey) := by
  constructor
  · intro h
    constructor
    · unfold PrivateKey.from_slice
      rw [if_neg (by omega)]
    · intro k hk
      unfold PrivateKey.from_slice at hk
      rw [if_neg (by omega)] at hk
      cases hk
      rfl
  · intro h
    unfold PrivateKey.from_slice
    rw [if_pos h]

/-- Witness for C10: the all-zero 32-byte slice is stored verbatim. -/
theorem from_slice_roundtrip_witness :
    PrivateKey.from_slice (List.replicate 32 0) =
      Except.ok { bytes := List.replicate 32 0 } :=
  (((from_slice_roundtrip (List.replicate 32 0)).1) (by decide)).1

/-- Claim C7: deriving an address from the all-zero private key fails,
given the elliptic-curve collaborator's contract that a zero scalar is
rejected: for every point function and hash function, `to_public_key()` on
`PrivateKey::new()` returns an error and never an address. -/
theorem to_public_key_zero_key (pointFn : Nat → List Nat)
    (keccak : List Nat → List Nat) :
    ∃ e, PrivateKey.to_public_key pointFn keccak PrivateKey.new =
      Except.error e := by
  refine ⟨ClarityError.InvalidPrivKey, ?_⟩
  have hs : PrivateKey.scalar_to_public_key pointFn (List.replicate 32 0) =
      Except.error ClarityError.InvalidPrivKey := by
    unfold PrivateKey.scalar_to_public_key
    rw [if_neg (by decide), if_pos (Or.inl (by decide))]
  unfold PrivateKey.to_public_key PrivateKey.new
  rw [hs]

/-- Claim C8: for every 32-byte key holding a nonzero scalar below the curve
order, `to_public_key()` succeeds, is deterministic, and returns exactly 20
bytes: the last 20 bytes of the Keccak-256 digest of the 64-byte
uncompressed public key with its 1-byte prefix removed. -/
theorem to_public_key_valid (pointFn : Nat → List Nat)
    (keccak : List Nat → List Nat) (k : PrivateKey)
    (hlen : k.bytes.length = 32)
    (hnz : PrivateKey.be_bytes_to_nat k.bytes ≠ 0)
    (hlt : PrivateKey.be_bytes_to_nat k.bytes < SECPK1N)
    (hp65 : (pointFn (PrivateKey.be_bytes_to_nat k.bytes)).length = 65)
    (hpnz : (pointFn (PrivateKey.be_bytes_to_nat k.bytes)).drop 1 ≠
      List.replicate 64 0)
    (hk32 : ∀ bs, (keccak bs).length = 32) :
    (∀ k2 : PrivateKey, k2 = k →
      PrivateKey.to_public_key pointFn keccak k2 =
        PrivateKey.to_public_key pointFn keccak k) ∧
    ((pointFn (PrivateKey.be_bytes_to_nat k.bytes)).drop 1).length = 64 ∧
    ∃ a, PrivateKey.to_public_key pointFn keccak k = Except.ok a ∧
      a.length = 20 ∧
      a = (keccak
        ((pointFn (PrivateKey.be_bytes_to_nat k.bytes)).drop 1)).drop 12 := by
  refine ⟨fun k2 hk2 => (by rw [hk2]), ?_, ?_⟩
  · rw [List.length_drop, hp65]
  · have hs : PrivateKey.scalar_to_public_key pointFn k.bytes =
        Except.ok (pointFn (PrivateKey.be_bytes_to_nat k.bytes)) := by
      unfold PrivateKey.scalar_to_public_key
      rw [if_neg (by omega), if_neg (by push_neg; exact ⟨hnz, by omega⟩)]
    refine ⟨(keccak
      ((pointFn (PrivateKey.be_bytes_to_nat k.bytes)).drop 1)).drop 12,
      ?_, ?_, rfl⟩
    · unfold PrivateKey.to_public_key
      rw [hs]
      simp only [if_neg hpnz]
    · rw [List.length_drop, hk32]

/-- Witness for C8: a concrete scalar-one key with concrete collaborator
functions yields a 20-byte address. -/
theorem to_public_key_valid_witness :
    ∃ a, PrivateKey.to_public_key (fun _ => List.replicate 65 1)
        (fun _ => List.replicate 32 2)
        { bytes := List.replicate 31 0 ++ [1] } = Except.ok a ∧
      a.length = 20 ∧
      a = ((fun _ : List Nat => List.replicate 32 2)
        (((fun _ : Nat => List.replicate 65 1)
          (PrivateKey.be_bytes_to_nat (List.replicate 31 0 ++ [1]))).drop 1)).drop 12 :=
  (to_public_key_valid (fun _ => List.replicate 65 1)
    (fun _ => List.replicate 32 2) { bytes := List.replicate 31 0 ++ [1] }
    (by decide) (by decide) (by decide) (by decide) (by decide)
    (fun bs => by simp)).2.2

end Clarity
